import Mathlib

/-!
Verification development for the azurerm Terraform provider sources,
centred on the MariaDb virtual network rule resource: its status-refresh
closure, the convergence-poll loop configured around it, and the shared
"remove from state on 404" Read pattern.

The status-refresh closure and the resource Read functions are embedded
directly from the Go sources.  The poll loop itself
(`resource.StateChangeConf.WaitForState`) belongs to the
terraform-plugin-sdk dependency and is not part of the repository sources;
it is modelled from the specification (see `pollAux` below).
-/

namespace AzureRM

/-- Modelled from the spec: an HTTP response as far as not-found detection
needs it.  The helper `utils.ResponseWasNotFound` is repository code that is
not among the given sources; the spec describes a not-found fetch outcome as
the single well-understood 404 propagation-lag symptom, distinguishable from
every other error. -/
structure Response where
  statusCode : Nat
deriving DecidableEq, Repr

/-- Modelled from the spec: detection of the not-found condition on a
response, true exactly on HTTP status 404. -/
def responseWasNotFound (r : Response) : Bool :=
  r.statusCode == 404

/-- Embeds `mariadb.VirtualNetworkRuleProperties`: the subnet id, the
service-endpoint flag and the provisioning `State` label (a string-typed
enum in the SDK, carried here as the raw string). -/
structure VirtualNetworkRuleProperties where
  virtualNetworkSubnetID : Option String
  ignoreMissingVnetServiceEndpoint : Option Bool
  state : String
deriving DecidableEq, Repr

/-- Embeds `mariadb.VirtualNetworkRule`: identity fields, the optional
properties bag, and the embedded HTTP response of the call that produced
it. -/
structure VirtualNetworkRule where
  id : Option String
  name : Option String
  properties : Option VirtualNetworkRuleProperties
  response : Response
deriving DecidableEq, Repr

/-- Outcome of one `client.Get` call for a MariaDb virtual network rule:
the (possibly zero-valued) rule struct together with the optional error, as
in the Go pair `(resp, err)`. -/
structure MariaDbGetResult where
  rule : VirtualNetworkRule
  error : Option String
deriving DecidableEq, Repr

/-- Result triple of one invocation of a status-refresh closure, mirroring
the Go signature `func() (interface\x7b\x7d, string, error)`. -/
structure RefreshResult where
  result : Option VirtualNetworkRule
  status : String
  error : Option String
deriving DecidableEq, Repr

/-- Error message built by the refresh closure when the Get fails with a
non-404 error (the Go `fmt.Errorf` format collapsed to the wrapped
error). -/
def pollingErrorMessage (err : String) : String :=
  "Error polling for the state of the MariaDb Virtual Network Rule: " ++ err

/-- Embeds the closure returned by
`MariaDbVirtualNetworkStateStatusCodeRefreshFunc`
(resource_arm_mariadb_virtual_network_rule.go, lines 226-246), applied to
the outcome of the underlying `client.Get` call: a failed Get whose
response was a 404 yields the label "ResponseNotFound" with nil error; any
other failed Get yields an empty label with the polling error; a
successful Get yields the properties `State` label, or "Unknown" when the
properties bag is absent. -/
def MariaDbVirtualNetworkStateStatusCodeRefreshFunc
    (get : MariaDbGetResult) : RefreshResult :=
  match get.error with
  | some err =>
    if responseWasNotFound get.rule.response then
      { result := none, status := "ResponseNotFound", error := none }
    else
      { result := none, status := "", error := some (pollingErrorMessage err) }
  | none =>
    match get.rule.properties with
    | some props => { result := some get.rule, status := props.state, error := none }
    | none => { result := some get.rule, status := "Unknown", error := none }

/-- Modelled from the spec: a PollRequest, the immutable descriptor of one
poll operation (pending labels, target labels, polling interval, minimum
wait floor, total timeout, continuous-occurrence count).  The poll loop
consuming it, `resource.StateChangeConf.WaitForState`, lives in the
terraform-plugin-sdk dependency and is not among the given sources. -/
structure PollRequest where
  pending : List String
  target : List String
  interval : Nat
  minWait : Nat
  timeout : Nat
  occurrence : Nat
deriving DecidableEq, Repr

/-- One observation handed to the poll loop by its status-fetch function:
a successful fetch with a snapshot and a status label, a fetch that failed
with the not-found condition, or a fetch that failed with any other
error. -/
inductive FetchStep (α : Type) where
  | found (snapshot : α) (status : String)
  | notFound
  | fail (message : String)
deriving DecidableEq, Repr

/-- Status label under which the poll loop classifies an observation: the
fetched label for a successful fetch, the pending label "ResponseNotFound"
for a not-found fetch (spec step 2), and the empty label for a failed
fetch (which terminates the poll before any classification). -/
def stepStatus {α : Type} : FetchStep α → String
  | .found _ s => s
  | .notFound => "ResponseNotFound"
  | .fail _ => ""

/-- Snapshot carried by an observation, when any. -/
def stepSnapshot {α : Type} : FetchStep α → Option α
  | .found a _ => some a
  | .notFound => none
  | .fail _ => none

/-- True exactly on a failed-fetch observation. -/
def stepIsFail {α : Type} : FetchStep α → Bool
  | .fail _ => true
  | _ => false

/-- Terminal outcome of a poll: success with the last fetched snapshot, a
surfaced fetch failure, an unexpected terminal status, or a timeout. -/
inductive PollOutcome (α : Type) where
  | success (snapshot : Option α)
  | fetchFailure (message : String)
  | unexpectedStatus (status : String)
  | timeout
deriving DecidableEq, Repr

/-- Trace of one poll run: the outcome when the run terminated within the
supplied observations (`none` when the observation sequence was exhausted
while still polling), the number of fetch calls made, and the
wait durations slept before each fetch call. -/
structure PollTrace (α : Type) where
  outcome : Option (PollOutcome α)
  fetchCalls : Nat
  waits : List Nat
deriving DecidableEq, Repr

/-- Wait slept before every fetch call: the fixed per-request interval,
bounded below by the minimum-wait floor. -/
def effectiveWait (req : PollRequest) : Nat :=
  max req.interval req.minWait

/-- Modelled from the spec: the ConvergencePoller protocol of spec section
4.1, executed against an explicit sequence of fetch observations.
`elapsed` is the wall-clock time consumed so far and `count` the current
consecutive-target counter.  Before each fetch the loop sleeps
`effectiveWait req`; if that would push the cumulative elapsed time beyond
the timeout, the poll ends with a timeout outcome.  A failed fetch ends
the poll at once with a fetch-failure outcome.  Otherwise the observation
label is classified: a target label increments the consecutive counter and
yields success once the counter reaches the continuous-occurrence count; a
pending label resets the counter to zero and the loop retries; any other
label ends the poll at once with an unexpected-status outcome. -/
def pollAux {α : Type} (req : PollRequest) :
    List (FetchStep α) → Nat → Nat → PollTrace α
  | steps, elapsed, count =>
    if req.timeout < elapsed + effectiveWait req then
      { outcome := some PollOutcome.timeout, fetchCalls := 0, waits := [] }
    else
      match steps with
      | [] => { outcome := none, fetchCalls := 0, waits := [] }
      | s :: rest =>
        match s with
        | .fail msg =>
          { outcome := some (PollOutcome.fetchFailure msg),
            fetchCalls := 1, waits := [effectiveWait req] }
        | _ =>
          if stepStatus s ∈ req.target then
            if req.occurrence ≤ count + 1 then
              { outcome := some (PollOutcome.success (stepSnapshot s)),
                fetchCalls := 1, waits := [effectiveWait req] }
            else
              let t := pollAux req rest (elapsed + effectiveWait req) (count + 1)
              { outcome := t.outcome, fetchCalls := t.fetchCalls + 1,
                waits := effectiveWait req :: t.waits }
          else if stepStatus s ∈ req.pending then
            let t := pollAux req rest (elapsed + effectiveWait req) 0
            { outcome := t.outcome, fetchCalls := t.fetchCalls + 1,
              waits := effectiveWait req :: t.waits }
          else
            { outcome := some (PollOutcome.unexpectedStatus (stepStatus s)),
              fetchCalls := 1, waits := [effectiveWait req] }

/-- A whole poll run: the loop started with zero elapsed time and a zero
consecutive-target counter. -/
def pollRun {α : Type} (req : PollRequest) (steps : List (FetchStep α)) :
    PollTrace α :=
  pollAux req steps 0 0

/-- Embeds the `resource.StateChangeConf` literal of
`resourceArmMariaDbVirtualNetworkRuleCreateUpdate`
(resource_arm_mariadb_virtual_network_rule.go, lines 134-141), with
durations in seconds: timeout 30 minutes, minimum wait 1 minute,
continuous-target-occurrence count 5.  The polling interval is not set by
the source literal and is left as a parameter. -/
def mariaDbVnetRuleStateConf (interval : Nat) : PollRequest :=
  { pending := ["Initializing", "InProgress", "Unknown", "ResponseNotFound"]
    target := ["Ready"]
    interval := interval
    minWait := 60
    timeout := 1800
    occurrence := 5 }

/-- Value stored by a `d.Set` call on Terraform resource data.  Scalar
values from the Azure responses are carried as they are; values produced
by external helpers (flatten functions, location normalisation) are
abstracted as `external` with the helper name, since no claim depends on
their contents. -/
inductive AttrValue where
  | str (value : String)
  | optStr (value : Option String)
  | optBool (value : Option Bool)
  | optStrList (value : Option (List String))
  | strMap (value : List (String × String))
  | external (helper : String)
deriving DecidableEq, Repr

/-- Terraform resource data as the Read functions touch it: the resource
id and the attributes written by `d.Set`. -/
structure ResourceData where
  id : String
  attrs : List (String × AttrValue)
deriving DecidableEq, Repr

/-- Embeds `d.Set(key, value)`; the terraform-plugin-sdk schema errors on
mismatched values are not modelled, as every value written by the embedded
Read functions conforms to its declared schema. -/
def ResourceData.set (d : ResourceData) (key : String) (value : AttrValue) :
    ResourceData :=
  { d with attrs := (key, value) :: d.attrs }

/-- Embeds `d.SetId(value)`. -/
def ResourceData.setResourceId (d : ResourceData) (value : String) :
    ResourceData :=
  { d with id := value }

/-- Embeds `resourceArmMariaDbVirtualNetworkRuleRead`
(resource_arm_mariadb_virtual_network_rule.go, lines 157-191) from the
`client.Get` call on: the resource id has already been parsed into
`resourceGroup`, `serverName` and `name`, and `get` is the outcome of the
Get call.  A not-found Get clears the resource id and returns no error;
any other Get error is returned with the id unchanged; a successful Get
writes the attributes and returns no error. -/
def resourceArmMariaDbVirtualNetworkRuleRead (d : ResourceData)
    (resourceGroup serverName name : String) (get : MariaDbGetResult) :
    ResourceData × Option String :=
  match get.error with
  | some err =>
    if responseWasNotFound get.rule.response then
      (d.setResourceId "", none)
    else
      (d, some ("Error reading MariaDb Virtual Network Rule: " ++ name ++
        " (MariaDb Server: " ++ serverName ++ ", Resource Group: " ++
        resourceGroup ++ "): " ++ err))
  | none =>
    let d := d.set "name" (.optStr get.rule.name)
    let d := d.set "resource_group_name" (.str resourceGroup)
    let d := d.set "server_name" (.str serverName)
    let d := match get.rule.properties with
      | some props => d.set "subnet_id" (.optStr props.virtualNetworkSubnetID)
      | none => d
    (d, none)

/-- Embeds `web.HostNameBindingProperties` as far as the Read touches it. -/
structure HostNameBindingProperties where
  sslState : String
  thumbprint : Option String
  virtualIP : Option String
deriving DecidableEq, Repr

/-- Embeds `web.HostNameBinding`. -/
structure HostNameBinding where
  id : Option String
  properties : Option HostNameBindingProperties
  response : Response
deriving DecidableEq, Repr

/-- Outcome of one `client.GetHostNameBinding` call. -/
structure HostNameBindingGetResult where
  binding : HostNameBinding
  error : Option String
deriving DecidableEq, Repr

/-- Embeds `resourceArmAppServiceCustomHostnameBindingRead`
(resource_arm_app_service_custom_hostname_binding.go, lines 137-173) from
the `client.GetHostNameBinding` call on. -/
def resourceArmAppServiceCustomHostnameBindingRead (d : ResourceData)
    (resourceGroup appServiceName hostname : String)
    (get : HostNameBindingGetResult) : ResourceData × Option String :=
  match get.error with
  | some err =>
    if responseWasNotFound get.binding.response then
      (d.setResourceId "", none)
    else
      (d, some ("Error making Read request on App Service Hostname Binding " ++
        hostname ++ " (App Service " ++ appServiceName ++ " / Resource Group " ++
        resourceGroup ++ "): " ++ err))
  | none =>
    let d := d.set "hostname" (.str hostname)
    let d := d.set "app_service_name" (.str appServiceName)
    let d := d.set "resource_group_name" (.str resourceGroup)
    let d := match get.binding.properties with
      | some props =>
        ((d.set "ssl_state" (.str props.sslState)).set
          "thumbprint" (.optStr props.thumbprint)).set
          "virtual_ip" (.optStr props.virtualIP)
      | none => d
    (d, none)

/-- Embeds `automation.DscConfigurationAssociationProperty`.  The source
dereferences `resp.Configuration` unconditionally, so the field is
embedded as required. -/
structure DscConfigurationAssociationProperty where
  name : Option String
deriving DecidableEq, Repr

/-- Embeds `automation.DscNodeConfiguration` as far as the Read touches
it. -/
structure DscNodeConfiguration where
  name : Option String
  configuration : DscConfigurationAssociationProperty
  response : Response
deriving DecidableEq, Repr

/-- Outcome of one `client.Get` call for a DSC node configuration. -/
structure DscNodeConfigurationGetResult where
  node : DscNodeConfiguration
  error : Option String
deriving DecidableEq, Repr

/-- Embeds `resourceArmAutomationDscNodeConfigurationRead`
(resource_arm_automation_dsc_nodeconfiguration.go, lines 119-150) from the
`client.Get` call on. -/
def resourceArmAutomationDscNodeConfigurationRead (d : ResourceData)
    (resGroup accName name : String) (get : DscNodeConfigurationGetResult) :
    ResourceData × Option String :=
  match get.error with
  | some err =>
    if responseWasNotFound get.node.response then
      (d.setResourceId "", none)
    else
      (d, some ("Error making Read request on AzureRM Automation Dsc Node Configuration " ++
        name ++ ": " ++ err))
  | none =>
    let d := d.set "name" (.optStr get.node.name)
    let d := d.set "resource_group_name" (.str resGroup)
    let d := d.set "automation_account_name" (.str accName)
    let d := d.set "configuration_name" (.optStr get.node.configuration.name)
    (d, none)

/-- Embeds the `filesystems.GetPropertiesResult` of the giovanni SDK as
far as the Read touches it. -/
structure FileSystemPropertiesResult where
  properties : List (String × String)
  response : Response
deriving DecidableEq, Repr

/-- Outcome of one `client.GetProperties` call for a Data Lake Gen2 file
system. -/
structure FileSystemGetResult where
  resp : FileSystemPropertiesResult
  error : Option String
deriving DecidableEq, Repr

/-- Embeds `resourceArmStorageDataLakeGen2FileSystemRead`
(resource_arm_storage_data_lake_gen2_filesystem.go, lines 163-192) from
the `client.GetProperties` call on: the resource id has already been
parsed into `accountName` and `directoryName`. -/
def resourceArmStorageDataLakeGen2FileSystemRead (d : ResourceData)
    (accountName directoryName : String) (get : FileSystemGetResult) :
    ResourceData × Option String :=
  match get.error with
  | some err =>
    if responseWasNotFound get.resp.response then
      (d.setResourceId "", none)
    else
      (d, some ("Error retrieving File System " ++ directoryName ++
        " in Storage Account " ++ accountName ++ ": " ++ err))
  | none =>
    let d := d.set "name" (.str directoryName)
    let d := d.set "properties" (.strMap get.resp.properties)
    (d, none)

/-- Embeds `containerservice.ManagedClusterProperties` as far as the Read
touches it.  The composite profile fields consumed only by the flatten
helpers are abstracted to the payloads those helpers receive; `aadProfile`
is kept because its presence switches the admin-profile branch. -/
structure ManagedClusterProperties where
  dnsPrefix : Option String
  fqdn : Option String
  kubernetesVersion : Option String
  nodeResourceGroup : Option String
  enablePodSecurityPolicy : Option Bool
  apiServerAuthorizedIPRanges : Option (List String)
  aadProfile : Option String
deriving DecidableEq, Repr

/-- Embeds `containerservice.ManagedCluster` as far as the Read touches
it. -/
structure ManagedCluster where
  name : Option String
  location : Option String
  properties : Option ManagedClusterProperties
  tags : List (String × String)
  response : Response
deriving DecidableEq, Repr

/-- Outcome of one `client.Get` call for a managed cluster. -/
structure ManagedClusterGetResult where
  cluster : ManagedCluster
  error : Option String
deriving DecidableEq, Repr

/-- Outcome of one `client.GetAccessProfile` call: an opaque kubeconfig
payload or an error. -/
structure AccessProfileResult where
  profile : String
  error : Option String
deriving DecidableEq, Repr

/-- Attribute writes of the managed-cluster properties block
(resource_arm_kubernetes_cluster.go, lines 878-941), with flatten-helper
outputs abstracted as `AttrValue.external`. -/
def kubernetesClusterSetProperties (d : ResourceData)
    (props : ManagedClusterProperties) : ResourceData :=
  let d := d.set "dns_prefix" (.optStr props.dnsPrefix)
  let d := d.set "fqdn" (.optStr props.fqdn)
  let d := d.set "kubernetes_version" (.optStr props.kubernetesVersion)
  let d := d.set "node_resource_group" (.optStr props.nodeResourceGroup)
  let d := d.set "enable_pod_security_policy" (.optBool props.enablePodSecurityPolicy)
  let d := d.set "api_server_authorized_ip_ranges" (.optStrList props.apiServerAuthorizedIPRanges)
  let d := d.set "addon_profile" (.external "flattenKubernetesClusterAddonProfiles")
  let d := d.set "agent_pool_profile" (.external "flattenKubernetesClusterAgentPoolProfiles")
  let d := d.set "linux_profile" (.external "flattenKubernetesClusterLinuxProfile")
  let d := d.set "windows_profile" (.external "flattenKubernetesClusterWindowsProfile")
  let d := d.set "network_profile" (.external "flattenKubernetesClusterNetworkProfile")
  let d := d.set "role_based_access_control" (.external "flattenKubernetesClusterRoleBasedAccessControl")
  d.set "service_principal" (.external "flattenAzureRmKubernetesClusterServicePrincipalProfile")

/-- Attribute writes that close every successful managed-cluster Read
(resource_arm_kubernetes_cluster.go, lines 944-950): the user kubeconfig
and the tags. -/
def kubernetesClusterSetKubeConfig (d : ResourceData)
    (cluster : ManagedCluster) : ResourceData :=
  let d := d.set "kube_config_raw" (.external "flattenKubernetesClusterAccessProfile")
  let d := d.set "kube_config" (.external "flattenKubernetesClusterAccessProfile")
  d.set "tags" (.strMap cluster.tags)

/-- Embeds `resourceArmKubernetesClusterRead`
(resource_arm_kubernetes_cluster.go, lines 844-951) from the `client.Get`
call on: `userProfile` and `adminProfile` are the outcomes of the
`GetAccessProfile` calls for the clusterUser and clusterAdmin roles (the
latter is consulted only when an AAD profile is present). -/
def resourceArmKubernetesClusterRead (d : ResourceData)
    (resGroup name : String) (get : ManagedClusterGetResult)
    (userProfile adminProfile : AccessProfileResult) :
    ResourceData × Option String :=
  match get.error with
  | some err =>
    if responseWasNotFound get.cluster.response then
      (d.setResourceId "", none)
    else
      (d, some ("Error retrieving Managed Kubernetes Cluster " ++ name ++
        " (Resource Group " ++ resGroup ++ "): " ++ err))
  | none =>
    match userProfile.error with
    | some err =>
      (d, some ("Error retrieving Access Profile for Managed Kubernetes Cluster " ++
        name ++ " (Resource Group " ++ resGroup ++ "): " ++ err))
    | none =>
      let d := d.set "name" (.optStr get.cluster.name)
      let d := d.set "resource_group_name" (.str resGroup)
      let d := match get.cluster.location with
        | some _ => d.set "location" (.external "azure.NormalizeLocation")
        | none => d
      match get.cluster.properties with
      | none => (kubernetesClusterSetKubeConfig d get.cluster, none)
      | some props =>
        let d := kubernetesClusterSetProperties d props
        match props.aadProfile with
        | some _ =>
          match adminProfile.error with
          | some err =>
            (d, some ("Error retrieving Admin Access Profile for Managed Kubernetes Cluster " ++
              name ++ " (Resource Group " ++ resGroup ++ "): " ++ err))
          | none =>
            let d := d.set "kube_admin_config_raw" (.external "flattenKubernetesClusterAccessProfile")
            let d := d.set "kube_admin_config" (.external "flattenKubernetesClusterAccessProfile")
            (kubernetesClusterSetKubeConfig d get.cluster, none)
        | none =>
          let d := d.set "kube_admin_config_raw" (.str "")
          let d := d.set "kube_admin_config" (.external "emptyList")
          (kubernetesClusterSetKubeConfig d get.cluster, none)

theorem pollAux_stop {α : Type} (req : PollRequest) (steps : List (FetchStep α))
    (elapsed count : Nat) (h : req.timeout < elapsed + effectiveWait req) :
    pollAux req steps elapsed count =
      { outcome := some PollOutcome.timeout, fetchCalls := 0, waits := [] } := by
  rw [pollAux.eq_def]
  simp [h]

theorem pollAux_nil {α : Type} (req : PollRequest) (elapsed count : Nat)
    (h : ¬ req.timeout < elapsed + effectiveWait req) :
    pollAux (α := α) req [] elapsed count =
      { outcome := none, fetchCalls := 0, waits := [] } := by
  rw [pollAux.eq_def]
  simp [h]

theorem pollAux_fail {α : Type} (req : PollRequest) (msg : String)
    (rest : List (FetchStep α)) (elapsed count : Nat)
    (h : ¬ req.timeout < elapsed + effectiveWait req) :
    pollAux req (FetchStep.fail msg :: rest) elapsed count =
      { outcome := some (PollOutcome.fetchFailure msg), fetchCalls := 1,
        waits := [effectiveWait req] } := by
  rw [pollAux.eq_def]
  simp [h]

theorem pollAux_target_done {α : Type} (req : PollRequest) (s : FetchStep α)
    (rest : List (FetchStep α)) (elapsed count : Nat)
    (h : ¬ req.timeout < elapsed + effectiveWait req)
    (hs : stepIsFail s = false)
    (ht : stepStatus s ∈ req.target) (hocc : req.occurrence ≤ count + 1) :
    pollAux req (s :: rest) elapsed count =
      { outcome := some (PollOutcome.success (stepSnapshot s)), fetchCalls := 1,
        waits := [effectiveWait req] } := by
  cases s with
  | fail m => simp [stepIsFail] at hs
  | found a st =>
    rw [pollAux.eq_def]
    simp only [stepStatus] at ht
    simp [h, ht, hocc, stepStatus, stepSnapshot]
  | notFound =>
    rw [pollAux.eq_def]
    simp only [stepStatus] at ht
    simp [h, ht, hocc, stepStatus, stepSnapshot]

theorem pollAux_target_step {α : Type} (req : PollRequest) (s : FetchStep α)
    (rest : List (FetchStep α)) (elapsed count : Nat)
    (h : ¬ req.timeout < elapsed + effectiveWait req)
    (hs : stepIsFail s = false)
    (ht : stepStatus s ∈ req.target) (hocc : ¬ req.occurrence ≤ count + 1) :
    pollAux req (s :: rest) elapsed count =
      { outcome := (pollAux req rest (elapsed + effectiveWait req) (count + 1)).outcome,
        fetchCalls := (pollAux req rest (elapsed + effectiveWait req) (count + 1)).fetchCalls + 1,
        waits := effectiveWait req ::
          (pollAux req rest (elapsed + effectiveWait req) (count + 1)).waits } := by
  cases s with
  | fail m => simp [stepIsFail] at hs
  | found a st =>
    rw [pollAux.eq_def]
    simp only [stepStatus] at ht
    simp [h, ht, hocc, stepStatus]
  | notFound =>
    rw [pollAux.eq_def]
    simp only [stepStatus] at ht
    simp [h, ht, hocc, stepStatus]

theorem pollAux_pending_step {α : Type} (req : PollRequest) (s : FetchStep α)
    (rest : List (FetchStep α)) (elapsed count : Nat)
    (h : ¬ req.timeout < elapsed + effectiveWait req)
    (hs : stepIsFail s = false)
    (ht : stepStatus s ∉ req.target) (hp : stepStatus s ∈ req.pending) :
    pollAux req (s :: rest) elapsed count =
      { outcome := (pollAux req rest (elapsed + effectiveWait req) 0).outcome,
        fetchCalls := (pollAux req rest (elapsed + effectiveWait req) 0).fetchCalls + 1,
        waits := effectiveWait req ::
          (pollAux req rest (elapsed + effectiveWait req) 0).waits } := by
  cases s with
  | fail m => simp [stepIsFail] at hs
  | found a st =>
    rw [pollAux.eq_def]
    simp only [stepStatus] at ht hp
    simp [h, ht, hp, stepStatus]
  | notFound =>
    rw [pollAux.eq_def]
    simp only [stepStatus] at ht hp
    simp [h, ht, hp, stepStatus]

theorem pollAux_unexpected {α : Type} (req : PollRequest) (s : FetchStep α)
    (rest : List (FetchStep α)) (elapsed count : Nat)
    (h : ¬ req.timeout < elapsed + effectiveWait req)
    (hs : stepIsFail s = false)
    (ht : stepStatus s ∉ req.target) (hp : stepStatus s ∉ req.pending) :
    pollAux req (s :: rest) elapsed count =
      { outcome := some (PollOutcome.unexpectedStatus (stepStatus s)), fetchCalls := 1,
        waits := [effectiveWait req] } := by
  cases s with
  | fail m => simp [stepIsFail] at hs
  | found a st =>
    rw [pollAux.eq_def]
    simp only [stepStatus] at ht hp
    simp [h, ht, hp, stepStatus]
  | notFound =>
    rw [pollAux.eq_def]
    simp only [stepStatus] at ht hp
    simp [h, ht, hp, stepStatus]

/-- Consecutive-target counter after processing a label sequence, starting
from `count`: a target label increments it, any other label resets it to
zero.  This mirrors step 3 and step 4 of the spec protocol, and at
starting count zero it equals the length of the maximal all-target suffix
of the sequence. -/
def consecutiveTargetCount (target : List String) (count : Nat)
    (labels : List String) : Nat :=
  labels.foldl (fun acc l => if l ∈ target then acc + 1 else 0) count

theorem consecutiveTargetCount_cons (target : List String) (count : Nat)
    (l : String) (labels : List String) :
    consecutiveTargetCount target count (l :: labels) =
      consecutiveTargetCount target (if l ∈ target then count + 1 else 0) labels := rfl

theorem consecutiveTargetCount_le (target : List String) :
    ∀ (labels : List String) (count : Nat),
    consecutiveTargetCount target count labels ≤ count + labels.length := by
  intro labels
  induction labels with
  | nil => intro count; simp [consecutiveTargetCount]
  | cons l L ih =>
    intro count
    rw [consecutiveTargetCount_cons]
    by_cases hl : l ∈ target
    · rw [if_pos hl]
      calc consecutiveTargetCount target (count + 1) L ≤ (count + 1) + L.length := ih (count + 1)
        _ = count + (l :: L).length := by simp [List.length_cons]; omega
    · rw [if_neg hl]
      calc consecutiveTargetCount target 0 L ≤ 0 + L.length := ih 0
        _ ≤ count + (l :: L).length := by simp [List.length_cons]; omega

theorem consecutiveTargetCount_eq (target : List String) :
    ∀ (labels : List String) (count : Nat),
    consecutiveTargetCount target count labels =
      if labels.all (fun l => decide (l ∈ target)) then count + labels.length
      else consecutiveTargetCount target 0 labels := by
  intro labels
  induction labels with
  | nil => intro count; simp [consecutiveTargetCount]
  | cons l L ih =>
    intro count
    rw [consecutiveTargetCount_cons]
    by_cases hl : l ∈ target
    · rw [if_pos hl]
      by_cases hall : L.all (fun l => decide (l ∈ target)) = true
      · have hall2 : (l :: L).all (fun l => decide (l ∈ target)) = true := by
          simp [List.all_cons, hl, hall]
        rw [ih (count + 1), if_pos hall, hall2, if_pos rfl]
        simp [List.length_cons]
        omega
      · have hall2 : ¬ (l :: L).all (fun l => decide (l ∈ target)) = true := by
          simp only [List.all_cons, Bool.and_eq_true, decide_eq_true_eq]
          intro hcontra
          exact hall hcontra.2
        rw [ih (count + 1), if_neg hall, if_neg hall2,
          consecutiveTargetCount_cons, if_pos hl, ih 1, if_neg hall]
    · rw [if_neg hl]
      have hall2 : ¬ (l :: L).all (fun l => decide (l ∈ target)) = true := by
        simp only [List.all_cons, Bool.and_eq_true, decide_eq_true_eq]
        intro hcontra
        exact hl hcontra.1
      rw [if_neg hall2, consecutiveTargetCount_cons, if_neg hl]

theorem consecutiveTargetCount_suffix (target : List String) :
    ∀ (labels : List String) (k : Nat),
    k ≤ consecutiveTargetCount target 0 labels →
    k ≤ labels.length ∧ ∀ l ∈ labels.drop (labels.length - k), l ∈ target := by
  intro labels
  induction labels with
  | nil =>
    intro k h
    simp only [consecutiveTargetCount, List.foldl_nil] at h
    refine ⟨by omega, ?_⟩
    simp
  | cons l L ih =>
    intro k h
    rw [consecutiveTargetCount_cons] at h
    by_cases hl : l ∈ target
    · rw [if_pos hl] at h
      rw [consecutiveTargetCount_eq] at h
      by_cases hall : L.all (fun l => decide (l ∈ target)) = true
      · rw [if_pos hall] at h
        refine ⟨by simp [List.length_cons]; omega, ?_⟩
        intro x hx
        have hx2 : x ∈ l :: L := List.mem_of_mem_drop hx
        rcases List.mem_cons.mp hx2 with hx3 | hx3
        · exact hx3 ▸ hl
        · have := List.all_eq_true.mp hall x hx3
          simpa using this
      · rw [if_neg hall] at h
        obtain ⟨h1, h2⟩ := ih k h
        refine ⟨by simp [List.length_cons]; omega, ?_⟩
        intro x hx
        have hidx : (l :: L).length - k = (L.length - k) + 1 := by
          simp only [List.length_cons]; omega
        rw [hidx, List.drop_succ_cons] at hx
        exact h2 x hx
    · rw [if_neg hl] at h
      obtain ⟨h1, h2⟩ := ih k h
      refine ⟨by simp [List.length_cons]; omega, ?_⟩
      intro x hx
      have hidx : (l :: L).length - k = (L.length - k) + 1 := by
        simp only [List.length_cons]; omega
      rw [hidx, List.drop_succ_cons] at hx
      exact h2 x hx


theorem pollAux_success_count {α : Type} (req : PollRequest)
    (steps : List (FetchStep α)) :
    ∀ (elapsed count : Nat) (snap : Option α),
    (pollAux req steps elapsed count).outcome = some (PollOutcome.success snap) →
    req.occurrence ≤ consecutiveTargetCount req.target count
      ((steps.take (pollAux req steps elapsed count).fetchCalls).map stepStatus) := by
  induction steps with
  | nil =>
    intro elapsed count snap h
    by_cases hto : req.timeout < elapsed + effectiveWait req
    · rw [pollAux_stop req _ _ _ hto] at h
      simp at h
    · rw [pollAux_nil req _ _ hto] at h
      simp at h
  | cons s rest ih =>
    intro elapsed count snap h
    by_cases hto : req.timeout < elapsed + effectiveWait req
    · rw [pollAux_stop req _ _ _ hto] at h
      simp at h
    · cases hsf : stepIsFail s with
      | true =>
        cases s with
        | fail m =>
          rw [pollAux_fail req _ _ _ _ hto] at h
          simp at h
        | found a st => simp [stepIsFail] at hsf
        | notFound => simp [stepIsFail] at hsf
      | false =>
        by_cases htg : stepStatus s ∈ req.target
        · by_cases hocc : req.occurrence ≤ count + 1
          · rw [pollAux_target_done req s rest _ _ hto hsf htg hocc]
            simp only [List.take_succ_cons, List.take_zero, List.map_cons,
              List.map_nil, consecutiveTargetCount_cons, if_pos htg]
            simpa [consecutiveTargetCount] using hocc
          · rw [pollAux_target_step req s rest _ _ hto hsf htg hocc] at h ⊢
            simp only at h
            simp only [List.take_succ_cons, List.map_cons,
              consecutiveTargetCount_cons, if_pos htg]
            exact ih (elapsed + effectiveWait req) (count + 1) snap h
        · by_cases hp : stepStatus s ∈ req.pending
          · rw [pollAux_pending_step req s rest _ _ hto hsf htg hp] at h ⊢
            simp only at h
            simp only [List.take_succ_cons, List.map_cons,
              consecutiveTargetCount_cons, if_neg htg]
            exact ih (elapsed + effectiveWait req) 0 snap h
          · rw [pollAux_unexpected req s rest _ _ hto hsf htg hp] at h
            simp at h


/-- C1: a poll that reports success with required continuous-occurrence
count k (k = 5 in the MariaDb virtual network rule instantiation) does so
only after at least k fetch calls, and the last k observed status labels
are all target labels — so no non-target observation (in particular no
pending observation, which resets the consecutive counter) intervenes
among them, and success is never reported on the first target observation
unless k = 1. -/
theorem poll_success_requires_continuous_target {α : Type}
    (req : PollRequest) (steps : List (FetchStep α)) (snap : Option α)
    (h : (pollRun req steps).outcome = some (PollOutcome.success snap)) :
    req.occurrence ≤ (pollRun req steps).fetchCalls ∧
    req.occurrence ≤ ((steps.take (pollRun req steps).fetchCalls).map stepStatus).length ∧
    ∀ l ∈ ((steps.take (pollRun req steps).fetchCalls).map stepStatus).drop
        (((steps.take (pollRun req steps).fetchCalls).map stepStatus).length - req.occurrence),
      l ∈ req.target := by
  have hA := pollAux_success_count req steps 0 0 snap h
  obtain ⟨h1, h2⟩ := consecutiveTargetCount_suffix req.target _ req.occurrence hA
  refine ⟨?_, h1, h2⟩
  calc req.occurrence
      ≤ ((steps.take (pollRun req steps).fetchCalls).map stepStatus).length := h1
    _ ≤ (pollRun req steps).fetchCalls := by
        simp only [List.length_map, List.length_take]
        exact Nat.min_le_left _ _

def c1WitnessSteps : List (FetchStep Nat) :=
  [FetchStep.found 1 "Ready", FetchStep.found 2 "InProgress",
   FetchStep.found 3 "Ready", FetchStep.found 4 "Ready", FetchStep.found 5 "Ready",
   FetchStep.found 6 "Ready", FetchStep.found 7 "Ready"]

/-- Witness for C1 at the MariaDb instantiation: a run whose counter is
reset by an intervening pending observation succeeds only on the 5th
consecutive "Ready". -/
theorem poll_success_requires_continuous_target_witness :
    (pollRun (mariaDbVnetRuleStateConf 1) c1WitnessSteps).outcome
        = some (PollOutcome.success (some 7)) ∧
    (5 ≤ (pollRun (mariaDbVnetRuleStateConf 1) c1WitnessSteps).fetchCalls ∧
     5 ≤ ((c1WitnessSteps.take
        (pollRun (mariaDbVnetRuleStateConf 1) c1WitnessSteps).fetchCalls).map stepStatus).length ∧
     ∀ l ∈ ((c1WitnessSteps.take
          (pollRun (mariaDbVnetRuleStateConf 1) c1WitnessSteps).fetchCalls).map stepStatus).drop
        (((c1WitnessSteps.take
          (pollRun (mariaDbVnetRuleStateConf 1) c1WitnessSteps).fetchCalls).map stepStatus).length - 5),
       l ∈ (mariaDbVnetRuleStateConf 1).target) :=
  ⟨by decide,
   poll_success_requires_continuous_target (mariaDbVnetRuleStateConf 1)
     c1WitnessSteps (some 7) (by decide)⟩

/-- C4: a fetched status label in neither the pending set nor the target
set makes the poll return an unexpected-status outcome immediately — one
fetch call is charged and the remaining observations are never fetched. -/
theorem poll_unexpected_status_stops {α : Type} (req : PollRequest) (a : α)
    (st : String) (rest : List (FetchStep α)) (elapsed count : Nat)
    (htime : elapsed + effectiveWait req ≤ req.timeout)
    (hp : st ∉ req.pending) (ht : st ∉ req.target) :
    pollAux req (FetchStep.found a st :: rest) elapsed count =
      { outcome := some (PollOutcome.unexpectedStatus st), fetchCalls := 1,
        waits := [effectiveWait req] } := by
  have h := pollAux_unexpected req (FetchStep.found a st) rest elapsed count
    (Nat.not_lt.mpr htime) rfl (by simpa [stepStatus] using ht)
    (by simpa [stepStatus] using hp)
  simpa [stepStatus] using h

/-- Witness for C4 at the MariaDb instantiation with the terminal label
"Failed". -/
theorem poll_unexpected_status_stops_witness :
    (0 + effectiveWait (mariaDbVnetRuleStateConf 1) ≤ (mariaDbVnetRuleStateConf 1).timeout ∧
     "Failed" ∉ (mariaDbVnetRuleStateConf 1).pending ∧
     "Failed" ∉ (mariaDbVnetRuleStateConf 1).target) ∧
    pollAux (mariaDbVnetRuleStateConf 1)
        (FetchStep.found (0 : Nat) "Failed" :: [FetchStep.found 1 "Ready"]) 0 0 =
      { outcome := some (PollOutcome.unexpectedStatus "Failed"), fetchCalls := 1,
        waits := [60] } :=
  ⟨⟨by decide, by decide, by decide⟩,
   poll_unexpected_status_stops (mariaDbVnetRuleStateConf 1) 0 "Failed"
     [FetchStep.found 1 "Ready"] 0 0 (by decide) (by decide) (by decide)⟩

theorem pollAux_timeout_pending {α : Type} (req : PollRequest)
    (steps : List (FetchStep α)) :
    ∀ (elapsed count : Nat),
    (∀ s ∈ steps, stepIsFail s = false ∧ stepStatus s ∈ req.pending ∧
      stepStatus s ∉ req.target) →
    req.timeout < elapsed + (steps.length + 1) * effectiveWait req →
    (pollAux req steps elapsed count).outcome = some PollOutcome.timeout := by
  induction steps with
  | nil =>
    intro elapsed count _ hlt
    have hto : req.timeout < elapsed + effectiveWait req := by
      simpa using hlt
    rw [pollAux_stop req _ _ _ hto]
  | cons s rest ih =>
    intro elapsed count hall hlt
    by_cases hto : req.timeout < elapsed + effectiveWait req
    · rw [pollAux_stop req _ _ _ hto]
    · obtain ⟨hsf, hp, ht⟩ := hall s (List.mem_cons_self s rest)
      rw [pollAux_pending_step req s rest _ _ hto hsf ht hp]
      refine ih (elapsed + effectiveWait req) 0
        (fun x hx => hall x (List.mem_cons_of_mem s hx)) ?_
      have harith : elapsed + ((s :: rest).length + 1) * effectiveWait req =
          (elapsed + effectiveWait req) + (rest.length + 1) * effectiveWait req := by
        simp only [List.length_cons]
        ring
      rw [harith] at hlt
      exact hlt

/-- C5: when every observation stays in the pending set (so the
continuous-occurrence success condition is never met) and the observation
supply outlasts the timeout budget, the poll returns the timeout outcome —
a constructor distinct from fetchFailure and unexpectedStatus — and stops
polling. -/
theorem poll_timeout_when_all_pending {α : Type} (req : PollRequest)
    (steps : List (FetchStep α))
    (hall : ∀ s ∈ steps, stepIsFail s = false ∧ stepStatus s ∈ req.pending ∧
      stepStatus s ∉ req.target)
    (hlong : req.timeout < (steps.length + 1) * effectiveWait req) :
    (pollRun req steps).outcome = some PollOutcome.timeout :=
  pollAux_timeout_pending req steps 0 0 hall (by simpa using hlong)

def c5WitnessSteps : List (FetchStep Nat) :=
  List.replicate 30 (FetchStep.found 0 "InProgress")

/-- Witness for C5 at the MariaDb instantiation: thirty pending
observations of "InProgress" outlast the 1800-second budget at 60-second
waits. -/
theorem poll_timeout_when_all_pending_witness :
    ((∀ s ∈ c5WitnessSteps, stepIsFail s = false ∧
        stepStatus s ∈ (mariaDbVnetRuleStateConf 1).pending ∧
        stepStatus s ∉ (mariaDbVnetRuleStateConf 1).target) ∧
     (mariaDbVnetRuleStateConf 1).timeout <
        (c5WitnessSteps.length + 1) * effectiveWait (mariaDbVnetRuleStateConf 1)) ∧
    (pollRun (mariaDbVnetRuleStateConf 1) c5WitnessSteps).outcome =
      some PollOutcome.timeout :=
  ⟨⟨by decide, by decide⟩,
   poll_timeout_when_all_pending (mariaDbVnetRuleStateConf 1) c5WitnessSteps
     (by decide) (by decide)⟩

def specSequenceSteps : List (FetchStep Nat) :=
  [FetchStep.notFound, FetchStep.found 1 "Initializing", FetchStep.found 2 "InProgress",
   FetchStep.found 3 "Ready", FetchStep.found 4 "Ready", FetchStep.found 5 "Ready",
   FetchStep.found 6 "Ready", FetchStep.found 7 "Ready"]

/-- C6: with the MariaDb instantiation (pending Initializing, InProgress,
Unknown, ResponseNotFound; target Ready; occurrence 5) the fetch sequence
ResponseNotFound, Initializing, InProgress, Ready, Ready, Ready, Ready,
Ready yields success right after the 5th consecutive "Ready", with exactly
8 fetch calls made. -/
theorem poll_spec_sequence_success :
    pollRun (mariaDbVnetRuleStateConf 1) specSequenceSteps =
      { outcome := some (PollOutcome.success (some 7)), fetchCalls := 8,
        waits := List.replicate 8 60 } := by decide

theorem pollAux_waits_replicate {α : Type} (req : PollRequest)
    (steps : List (FetchStep α)) :
    ∀ (elapsed count : Nat),
    (pollAux req steps elapsed count).waits =
      List.replicate (pollAux req steps elapsed count).fetchCalls (effectiveWait req) := by
  induction steps with
  | nil =>
    intro elapsed count
    by_cases hto : req.timeout < elapsed + effectiveWait req
    · rw [pollAux_stop req _ _ _ hto]; rfl
    · rw [pollAux_nil req _ _ hto]; rfl
  | cons s rest ih =>
    intro elapsed count
    by_cases hto : req.timeout < elapsed + effectiveWait req
    · rw [pollAux_stop req _ _ _ hto]; rfl
    · cases hsf : stepIsFail s with
      | true =>
        cases s with
        | fail m => rw [pollAux_fail req _ _ _ _ hto]; rfl
        | found a st => simp [stepIsFail] at hsf
        | notFound => simp [stepIsFail] at hsf
      | false =>
        by_cases htg : stepStatus s ∈ req.target
        · by_cases hocc : req.occurrence ≤ count + 1
          · rw [pollAux_target_done req s rest _ _ hto hsf htg hocc]; rfl
          · rw [pollAux_target_step req s rest _ _ hto hsf htg hocc]
            exact congrArg (List.cons (effectiveWait req))
              (ih (elapsed + effectiveWait req) (count + 1))
        · by_cases hp : stepStatus s ∈ req.pending
          · rw [pollAux_pending_step req s rest _ _ hto hsf htg hp]
            exact congrArg (List.cons (effectiveWait req))
              (ih (elapsed + effectiveWait req) 0)
          · rw [pollAux_unexpected req s rest _ _ hto hsf htg hp]; rfl

/-- C7: every wait of a poll run — including the one before the first
fetch call, hence one wait per fetch call — equals the fixed per-request
interval bounded below by the minimum-wait floor; there is no exponential
backoff and no jitter. -/
theorem poll_wait_policy {α : Type} (req : PollRequest)
    (steps : List (FetchStep α)) :
    (pollRun req steps).waits =
      List.replicate (pollRun req steps).fetchCalls (effectiveWait req) ∧
    req.minWait ≤ effectiveWait req ∧ req.interval ≤ effectiveWait req :=
  ⟨pollAux_waits_replicate req steps 0 0, Nat.le_max_right _ _, Nat.le_max_left _ _⟩


/-- C2: when the underlying Get fails with a not-found response, the
refresh closure returns the pending label "ResponseNotFound" with a nil
error; that label is in the MariaDb pending set, and on such a pending
observation the poller resets its counter and keeps polling instead of
surfacing a fetch failure. -/
theorem refresh_not_found_is_pending (get : MariaDbGetResult) (err : String)
    (he : get.error = some err)
    (hnf : responseWasNotFound get.rule.response = true) :
    MariaDbVirtualNetworkStateStatusCodeRefreshFunc get =
      { result := none, status := "ResponseNotFound", error := none } ∧
    "ResponseNotFound" ∈ (mariaDbVnetRuleStateConf 1).pending ∧
    ∀ (i : Nat) (rest : List (FetchStep Nat)) (elapsed count : Nat),
      elapsed + effectiveWait (mariaDbVnetRuleStateConf i) ≤
        (mariaDbVnetRuleStateConf i).timeout →
      pollAux (mariaDbVnetRuleStateConf i) (FetchStep.notFound :: rest) elapsed count =
        { outcome := (pollAux (mariaDbVnetRuleStateConf i) rest
            (elapsed + effectiveWait (mariaDbVnetRuleStateConf i)) 0).outcome,
          fetchCalls := (pollAux (mariaDbVnetRuleStateConf i) rest
            (elapsed + effectiveWait (mariaDbVnetRuleStateConf i)) 0).fetchCalls + 1,
          waits := effectiveWait (mariaDbVnetRuleStateConf i) ::
            (pollAux (mariaDbVnetRuleStateConf i) rest
              (elapsed + effectiveWait (mariaDbVnetRuleStateConf i)) 0).waits } := by
  refine ⟨?_, by decide, ?_⟩
  · simp [MariaDbVirtualNetworkStateStatusCodeRefreshFunc, he, hnf]
  · intro i rest elapsed count h
    exact pollAux_pending_step (mariaDbVnetRuleStateConf i) FetchStep.notFound rest
      elapsed count (Nat.not_lt.mpr h) rfl
      (by simp [stepStatus, mariaDbVnetRuleStateConf])
      (by simp [stepStatus, mariaDbVnetRuleStateConf])

def notFoundGet : MariaDbGetResult :=
  { rule := { id := none, name := none, properties := none,
              response := { statusCode := 404 } },
    error := some "resource not found" }

/-- Witness for C2: a 404 Get outcome evaluated through the refresh
closure. -/
theorem refresh_not_found_is_pending_witness :
    notFoundGet.error = some "resource not found" ∧
    responseWasNotFound notFoundGet.rule.response = true ∧
    MariaDbVirtualNetworkStateStatusCodeRefreshFunc notFoundGet =
      { result := none, status := "ResponseNotFound", error := none } :=
  ⟨rfl, by decide,
   (refresh_not_found_is_pending notFoundGet "resource not found" rfl (by decide)).1⟩

/-- C3: when the underlying Get fails with any error other than
not-found, the refresh closure surfaces the error (empty label, nil
snapshot), and the poll terminates on a failed fetch with the fetch-failure
outcome after exactly that one fetch call, whatever observations would have
followed. -/
theorem refresh_other_error_is_fatal (get : MariaDbGetResult) (err : String)
    (he : get.error = some err)
    (hnf : responseWasNotFound get.rule.response = false) :
    MariaDbVirtualNetworkStateStatusCodeRefreshFunc get =
      { result := none, status := "", error := some (pollingErrorMessage err) } ∧
    ∀ {α : Type} (req : PollRequest) (msg : String) (rest : List (FetchStep α))
      (elapsed count : Nat),
      elapsed + effectiveWait req ≤ req.timeout →
      pollAux req (FetchStep.fail msg :: rest) elapsed count =
        { outcome := some (PollOutcome.fetchFailure msg), fetchCalls := 1,
          waits := [effectiveWait req] } := by
  constructor
  · simp [MariaDbVirtualNetworkStateStatusCodeRefreshFunc, he, hnf]
  · intro α req msg rest elapsed count h
    exact pollAux_fail req msg rest elapsed count (Nat.not_lt.mpr h)

def deniedGet : MariaDbGetResult :=
  { rule := { id := none, name := none, properties := none,
              response := { statusCode := 403 } },
    error := some "authorization failed" }

/-- Witness for C3: a 403 Get outcome evaluated through the refresh
closure. -/
theorem refresh_other_error_is_fatal_witness :
    deniedGet.error = some "authorization failed" ∧
    responseWasNotFound deniedGet.rule.response = false ∧
    MariaDbVirtualNetworkStateStatusCodeRefreshFunc deniedGet =
      { result := none, status := "",
        error := some (pollingErrorMessage "authorization failed") } :=
  ⟨rfl, by decide,
   (refresh_other_error_is_fatal deniedGet "authorization failed" rfl (by decide)).1⟩

/-- C8: when the Get succeeds but the VirtualNetworkRuleProperties field
is nil, the refresh closure returns the snapshot with the pending label
"Unknown" and a nil error rather than an error outcome. -/
theorem refresh_missing_properties_unknown (get : MariaDbGetResult)
    (he : get.error = none) (hp : get.rule.properties = none) :
    MariaDbVirtualNetworkStateStatusCodeRefreshFunc get =
      { result := some get.rule, status := "Unknown", error := none } ∧
    "Unknown" ∈ (mariaDbVnetRuleStateConf 1).pending := by
  refine ⟨?_, by decide⟩
  simp [MariaDbVirtualNetworkStateStatusCodeRefreshFunc, he, hp]

def emptyPropsGet : MariaDbGetResult :=
  { rule := { id := some "rid", name := some "rule1", properties := none,
              response := { statusCode := 200 } },
    error := none }

/-- Witness for C8: a successful Get with no properties bag. -/
theorem refresh_missing_properties_unknown_witness :
    emptyPropsGet.error = none ∧
    emptyPropsGet.rule.properties = none ∧
    MariaDbVirtualNetworkStateStatusCodeRefreshFunc emptyPropsGet =
      { result := some emptyPropsGet.rule, status := "Unknown", error := none } :=
  ⟨rfl, rfl, (refresh_missing_properties_unknown emptyPropsGet rfl rfl).1⟩

def emptyStateGet : MariaDbGetResult :=
  { rule := { id := none, name := none,
              properties := some { virtualNetworkSubnetID := none,
                                   ignoreMissingVnetServiceEndpoint := none,
                                   state := "" },
              response := { statusCode := 200 } },
    error := none }

/-- Counterexample for C9 as stated: a successful Get whose properties
carry an empty State string makes the refresh closure return a nil error
together with an empty status label, refuting the claim that a nil error
implies a non-empty label. -/
theorem refresh_nonempty_status_counterexample :
    (MariaDbVirtualNetworkStateStatusCodeRefreshFunc emptyStateGet).error = none ∧
    (MariaDbVirtualNetworkStateStatusCodeRefreshFunc emptyStateGet).status = "" ∧
    ¬ ((MariaDbVirtualNetworkStateStatusCodeRefreshFunc emptyStateGet).error = none →
        (MariaDbVirtualNetworkStateStatusCodeRefreshFunc emptyStateGet).status ≠ "") := by
  refine ⟨rfl, rfl, ?_⟩
  intro h
  exact h rfl rfl

/-- C9 (amended): every refresh result with a non-nil error has the
empty status label and a nil snapshot; every refresh result with a nil
error has the label "ResponseNotFound", "Unknown", or the State string of
the response properties (which may itself be empty). -/
theorem refresh_error_status_classification (get : MariaDbGetResult) :
    ((MariaDbVirtualNetworkStateStatusCodeRefreshFunc get).error.isSome = true →
      (MariaDbVirtualNetworkStateStatusCodeRefreshFunc get).status = "" ∧
      (MariaDbVirtualNetworkStateStatusCodeRefreshFunc get).result = none) ∧
    ((MariaDbVirtualNetworkStateStatusCodeRefreshFunc get).error = none →
      (MariaDbVirtualNetworkStateStatusCodeRefreshFunc get).status = "ResponseNotFound" ∨
      (MariaDbVirtualNetworkStateStatusCodeRefreshFunc get).status = "Unknown" ∨
      ∃ props, get.rule.properties = some props ∧
        (MariaDbVirtualNetworkStateStatusCodeRefreshFunc get).status = props.state) := by
  unfold MariaDbVirtualNetworkStateStatusCodeRefreshFunc
  cases hge : get.error with
  | some err =>
    by_cases hnf : responseWasNotFound get.rule.response
    · simp [hnf]
    · simp [hnf]
  | none =>
    cases hp : get.rule.properties with
    | some props =>
      simp only
      exact ⟨by simp, fun _ => Or.inr (Or.inr ⟨props, rfl, rfl⟩)⟩
    | none => simp

def readyStateGet : MariaDbGetResult :=
  { rule := { id := none, name := none,
              properties := some { virtualNetworkSubnetID := some "subnet1",
                                   ignoreMissingVnetServiceEndpoint := some false,
                                   state := "Ready" },
              response := { statusCode := 200 } },
    error := none }

/-- Witness for C9 (amended): a successful Get with State "Ready". -/
theorem refresh_error_status_classification_witness :
    (MariaDbVirtualNetworkStateStatusCodeRefreshFunc readyStateGet).error = none ∧
    ((MariaDbVirtualNetworkStateStatusCodeRefreshFunc readyStateGet).status = "ResponseNotFound" ∨
     (MariaDbVirtualNetworkStateStatusCodeRefreshFunc readyStateGet).status = "Unknown" ∨
     ∃ props, readyStateGet.rule.properties = some props ∧
       (MariaDbVirtualNetworkStateStatusCodeRefreshFunc readyStateGet).status = props.state) :=
  ⟨rfl, (refresh_error_status_classification readyStateGet).2 rfl⟩


/-- C10: for each of the five embedded resource Read operations, a Get
that fails with a not-found response clears the resource id (removing the
resource from Terraform state) and returns nil, while any other Get error
is returned as an error with the id left unchanged. -/
theorem read_not_found_removes_from_state (d : ResourceData) :
    (∀ (resourceGroup serverName name : String) (g : MariaDbGetResult)
       (e : String), g.error = some e →
      (responseWasNotFound g.rule.response = true →
        resourceArmMariaDbVirtualNetworkRuleRead d resourceGroup serverName name g =
          (d.setResourceId "", none)) ∧
      (responseWasNotFound g.rule.response = false →
        (resourceArmMariaDbVirtualNetworkRuleRead d resourceGroup serverName name g).1.id
            = d.id ∧
        (resourceArmMariaDbVirtualNetworkRuleRead d resourceGroup serverName name g).2.isSome
            = true)) ∧
    (∀ (resourceGroup appServiceName hostname : String) (g : HostNameBindingGetResult)
       (e : String), g.error = some e →
      (responseWasNotFound g.binding.response = true →
        resourceArmAppServiceCustomHostnameBindingRead d resourceGroup appServiceName hostname g =
          (d.setResourceId "", none)) ∧
      (responseWasNotFound g.binding.response = false →
        (resourceArmAppServiceCustomHostnameBindingRead d resourceGroup appServiceName hostname g).1.id
            = d.id ∧
        (resourceArmAppServiceCustomHostnameBindingRead d resourceGroup appServiceName hostname g).2.isSome
            = true)) ∧
    (∀ (resGroup accName name : String) (g : DscNodeConfigurationGetResult)
       (e : String), g.error = some e →
      (responseWasNotFound g.node.response = true →
        resourceArmAutomationDscNodeConfigurationRead d resGroup accName name g =
          (d.setResourceId "", none)) ∧
      (responseWasNotFound g.node.response = false →
        (resourceArmAutomationDscNodeConfigurationRead d resGroup accName name g).1.id = d.id ∧
        (resourceArmAutomationDscNodeConfigurationRead d resGroup accName name g).2.isSome
            = true)) ∧
    (∀ (accountName directoryName : String) (g : FileSystemGetResult)
       (e : String), g.error = some e →
      (responseWasNotFound g.resp.response = true →
        resourceArmStorageDataLakeGen2FileSystemRead d accountName directoryName g =
          (d.setResourceId "", none)) ∧
      (responseWasNotFound g.resp.response = false →
        (resourceArmStorageDataLakeGen2FileSystemRead d accountName directoryName g).1.id = d.id ∧
        (resourceArmStorageDataLakeGen2FileSystemRead d accountName directoryName g).2.isSome
            = true)) ∧
    (∀ (resGroup name : String) (g : ManagedClusterGetResult)
       (userProfile adminProfile : AccessProfileResult)
       (e : String), g.error = some e →
      (responseWasNotFound g.cluster.response = true →
        resourceArmKubernetesClusterRead d resGroup name g userProfile adminProfile =
          (d.setResourceId "", none)) ∧
      (responseWasNotFound g.cluster.response = false →
        (resourceArmKubernetesClusterRead d resGroup name g userProfile adminProfile).1.id
            = d.id ∧
        (resourceArmKubernetesClusterRead d resGroup name g userProfile adminProfile).2.isSome
            = true)) := by
  refine ⟨?_, ?_, ?_, ?_, ?_⟩
  · intro resourceGroup serverName name g e he
    constructor
    · intro hnf
      simp [resourceArmMariaDbVirtualNetworkRuleRead, he, hnf]
    · intro hnf
      simp [resourceArmMariaDbVirtualNetworkRuleRead, he, hnf]
  · intro resourceGroup appServiceName hostname g e he
    constructor
    · intro hnf
      simp [resourceArmAppServiceCustomHostnameBindingRead, he, hnf]
    · intro hnf
      simp [resourceArmAppServiceCustomHostnameBindingRead, he, hnf]
  · intro resGroup accName name g e he
    constructor
    · intro hnf
      simp [resourceArmAutomationDscNodeConfigurationRead, he, hnf]
    · intro hnf
      simp [resourceArmAutomationDscNodeConfigurationRead, he, hnf]
  · intro accountName directoryName g e he
    constructor
    · intro hnf
      simp [resourceArmStorageDataLakeGen2FileSystemRead, he, hnf]
    · intro hnf
      simp [resourceArmStorageDataLakeGen2FileSystemRead, he, hnf]
  · intro resGroup name g userProfile adminProfile e he
    constructor
    · intro hnf
      simp [resourceArmKubernetesClusterRead, he, hnf]
    · intro hnf
      simp [resourceArmKubernetesClusterRead, he, hnf]

def notFoundReadState : ResourceData :=
  { id := "/subscriptions/s1/rule1", attrs := [] }

def notFoundReadGet : MariaDbGetResult :=
  { rule := { id := none, name := none, properties := none,
              response := { statusCode := 404 } },
    error := some "rule gone" }

/-- Witness for C10: the MariaDb Read at a 404 Get outcome. -/
theorem read_not_found_removes_from_state_witness :
    notFoundReadGet.error = some "rule gone" ∧
    responseWasNotFound notFoundReadGet.rule.response = true ∧
    resourceArmMariaDbVirtualNetworkRuleRead notFoundReadState "rg" "server1" "rule1"
        notFoundReadGet = (notFoundReadState.setResourceId "", none) :=
  ⟨rfl, rfl,
   ((read_not_found_removes_from_state notFoundReadState).1 "rg" "server1" "rule1"
      notFoundReadGet "rule gone" rfl).1 rfl⟩


end AzureRM
